import Mathlib

/-!
Verification development for the AI-decision-timeline-system repository.

The repository stores structured "decision" events with ordered steps,
exposes them through a REST API, and browses them in a React client.
The React client (frontend/src) is embedded directly from its source.
The FastAPI backend sources are not part of the checked tree, so the
Decision Record Store, Step Sequencer, Query/Filter Engine and
Aggregation Engine are modelled from the specification text, as marked
on each definition.

Numbers: confidence values and timestamps are modelled as rationals
(timestamps in seconds), counts as naturals.
-/

namespace DecisionTimeline

/-- Closed enumeration of decision sources: rule, llm, hybrid, manual. -/
inductive Source where
  | rule
  | llm
  | hybrid
  | manual
deriving DecidableEq

/-- Closed enumeration of step types: input, reasoning, decision, action, outcome. -/
inductive StepType where
  | input
  | reasoning
  | decision
  | action
  | outcome
deriving DecidableEq

/-- A persisted Step of a Decision. -/
structure Step where
  step_order : Nat
  step_type : StepType
  content : String
  timestamp : ℚ
deriving DecidableEq

/-- A persisted Decision with its ordered steps. -/
structure Decision where
  decision_id : String
  timestamp : ℚ
  input_data : Option String
  reasoning : Option String
  decision : String
  confidence : ℚ
  source : Source
  outcome : Option String
  tags : List String
  steps : List Step
deriving DecidableEq

/-- A step as supplied in a creation request (no order assigned yet). -/
structure StepPayload where
  step_type : StepType
  content : String
  timestamp : ℚ
deriving DecidableEq

/-- A decision-creation request body.  The required free-text `decision`
label is wrapped in `Option` so that a missing required field is
representable; `confidence` and `source` are carried as values of their
types, with range validation applied by `create`. -/
structure CreatePayload where
  input_data : Option String
  reasoning : Option String
  decision : Option String
  confidence : ℚ
  source : Source
  outcome : Option String
  tags : List String
  steps : Option (List StepPayload)
deriving DecidableEq

/-- Validation failures surfaced to the caller as client errors. -/
inductive ValidationError where
  | outOfRangeConfidence
  | missingRequiredField
deriving DecidableEq

/-- The Decision Record Store's persisted state: the list of decisions,
newest first. -/
structure Store where
  decisions : List Decision
deriving DecidableEq

/-- Modelled from the spec (backend services are not in the checked tree):
Step Sequencer synthesis — when no explicit steps are supplied, produce
the canonical stage list in the fixed order input, reasoning, decision,
action, outcome, omitting any stage with no corresponding data (there is
no top-level action payload, so the action stage is always omitted),
each stamped with the Decision's creation time. -/
def synthesizeSteps (p : CreatePayload) (ts : ℚ) : List StepPayload :=
  (match p.input_data with
    | some s => [⟨StepType.input, s, ts⟩]
    | none => []) ++
  (match p.reasoning with
    | some s => [⟨StepType.reasoning, s, ts⟩]
    | none => []) ++
  [⟨StepType.decision, p.decision.getD "", ts⟩] ++
  (match p.outcome with
    | some s => [⟨StepType.outcome, s, ts⟩]
    | none => [])

/-- Modelled from the spec: Step Sequencer order assignment — each step
receives `step_order` equal to its zero-based position in the list,
preserving the given order. -/
def assignOrders (xs : List StepPayload) : List Step :=
  xs.enum.map (fun q => ⟨q.1, q.2.step_type, q.2.content, q.2.timestamp⟩)

/-- Modelled from the spec: normalize a creation request to the ordered
Step sequence — explicit steps keep their supplied order, otherwise the
canonical sequence is synthesized. -/
def sequenceSteps (p : CreatePayload) (ts : ℚ) : List Step :=
  match p.steps with
  | some xs => assignOrders xs
  | none => assignOrders (synthesizeSteps p ts)

/-- Modelled from the spec: payload validation for `create` — reject
confidence outside the closed interval and a missing required decision
label (unknown source or step_type values are unrepresentable in the
closed enumerations). -/
def validatePayload (p : CreatePayload) : Option ValidationError :=
  if p.confidence < 0 ∨ 1 < p.confidence then
    some ValidationError.outOfRangeConfidence
  else if p.decision.isNone then
    some ValidationError.missingRequiredField
  else
    none

/-- Modelled from the spec: build the persisted Decision from a valid
payload, a fresh id and the creation time. -/
def mkDecision (newId : String) (ts : ℚ) (p : CreatePayload) : Decision :=
  { decision_id := newId
    timestamp := ts
    input_data := p.input_data
    reasoning := p.reasoning
    decision := p.decision.getD ""
    confidence := p.confidence
    source := p.source
    outcome := p.outcome
    tags := p.tags
    steps := sequenceSteps p ts }

/-- Modelled from the spec: `create` — validate, then persist the
Decision together with its steps as one atomic unit; on a validation
failure no decision is persisted and the error is returned. -/
def create (newId : String) (ts : ℚ) (p : CreatePayload) (s : Store) :
    Except ValidationError Store :=
  match validatePayload p with
  | some e => Except.error e
  | none => Except.ok ⟨mkDecision newId ts p :: s.decisions⟩

/-- Boolean test that one character list begins with another. -/
def leadsWith : List Char → List Char → Bool
  | [], _ => true
  | _ :: _, [] => false
  | p :: ps, c :: cs => p == c && leadsWith ps cs

/-- Boolean test that `pat` occurs as a contiguous run inside `cs`. -/
def containsSeq (pat : List Char) : List Char → Bool
  | [] => leadsWith pat []
  | c :: cs => leadsWith pat (c :: cs) || containsSeq pat cs

/-- Case-insensitive substring test on strings. -/
def substrCI (pat s : String) : Bool :=
  containsSeq pat.toLower.data s.toLower.data

/-- Sort direction of the list query. -/
inductive SortDir where
  | asc
  | desc
deriving DecidableEq

/-- Filter options of the Query/Filter Engine after defaults are applied. -/
structure ListFilters where
  source : Option Source
  min_confidence : Option ℚ
  max_confidence : Option ℚ
  tag : Option String
  search : Option String
  sort : SortDir
  limit : Nat
  offset : Nat
deriving DecidableEq

/-- Raw query parameters of a list request, each possibly unspecified. -/
structure RawListParams where
  source : Option Source
  min_confidence : Option ℚ
  max_confidence : Option ℚ
  tag : Option String
  search : Option String
  sort : Option SortDir
  limit : Option Nat
  offset : Option Nat
deriving DecidableEq

/-- A list request with every parameter left unspecified. -/
def emptyParams : RawListParams :=
  ⟨none, none, none, none, none, none, none, none⟩

/-- Modelled from the spec (backend routers are not in the checked tree):
parameter defaulting for the list endpoint — limit defaults to 50 with a
hard cap of 500, offset defaults to 0, sort defaults to descending. -/
def applyDefaults (r : RawListParams) : ListFilters :=
  { source := r.source
    min_confidence := r.min_confidence
    max_confidence := r.max_confidence
    tag := r.tag
    search := r.search
    sort := r.sort.getD SortDir.desc
    limit := min (r.limit.getD 50) 500
    offset := r.offset.getD 0 }

/-- Modelled from the spec: free-text search predicate — case-insensitive
substring match against the decision, reasoning and outcome fields,
matching if any of the three matches. -/
def searchMatches (q : String) (d : Decision) : Bool :=
  substrCI q d.decision ||
  substrCI q (d.reasoning.getD "") ||
  substrCI q (d.outcome.getD "")

/-- Modelled from the spec: the conjunction of all recognized filters. -/
def matchesFilters (f : ListFilters) (d : Decision) : Bool :=
  (match f.source with | some src => d.source == src | none => true) &&
  (match f.min_confidence with | some m => decide (m ≤ d.confidence) | none => true) &&
  (match f.max_confidence with | some m => decide (d.confidence ≤ m) | none => true) &&
  (match f.tag with | some t => d.tags.contains t | none => true) &&
  (match f.search with | some q => searchMatches q d | none => true)

/-- Insert an element into a list ahead of the first element it relates
to under `le` (insertion step of a stable insertion sort). -/
def insertLe (le : Decision → Decision → Bool) (a : Decision) :
    List Decision → List Decision
  | [] => [a]
  | b :: bs => if le a b then a :: b :: bs else b :: insertLe le a bs

/-- Stable insertion sort of decisions under a boolean comparator. -/
def sortDecisions (le : Decision → Decision → Bool) (xs : List Decision) :
    List Decision :=
  xs.foldr (insertLe le) []

/-- Modelled from the spec: total stable ordering of the list result —
timestamp in the requested direction, ties broken by decision_id
ascending. -/
def orderLe (dir : SortDir) (a b : Decision) : Bool :=
  match dir with
  | SortDir.asc =>
      decide (a.timestamp < b.timestamp) ||
      (a.timestamp == b.timestamp && decide (a.decision_id ≤ b.decision_id))
  | SortDir.desc =>
      decide (b.timestamp < a.timestamp) ||
      (a.timestamp == b.timestamp && decide (a.decision_id ≤ b.decision_id))

/-- Result shape of the Query/Filter Engine's list operation. -/
structure ListResult where
  items : List Decision
  total : Nat
  has_more : Bool
deriving DecidableEq

/-- Modelled from the spec: the list operation — filter, sort with the
stable total order, window by offset and limit; `total` counts matches
before pagination and `has_more` holds exactly when the window stops
short of the end. -/
def listQuery (s : Store) (f : ListFilters) : ListResult :=
  let matched := s.decisions.filter (matchesFilters f)
  let sorted := sortDecisions (orderLe f.sort) matched
  let items := (sorted.drop f.offset).take f.limit
  { items := items
    total := matched.length
    has_more := decide (f.offset + items.length < matched.length) }

/-- Round a rational to two decimal places. -/
def round2 (q : ℚ) : ℚ := (round (q * 100) : ℚ) / 100

/-- Stats object of the Aggregation Engine. -/
structure StatsResult where
  total_decisions : Nat
  average_confidence : ℚ
  low_confidence_count : Nat
  low_confidence_percentage : ℚ
deriving DecidableEq

/-- Modelled from the spec: the decisions whose timestamp falls in the
trailing window of the given number of days before `now` (86400 seconds
per day). -/
def statsWindow (s : Store) (now : ℚ) (days : Nat) : List Decision :=
  s.decisions.filter (fun d => decide (now - (days : ℚ) * 86400 ≤ d.timestamp))

/-- Modelled from the spec: the Aggregation Engine's stats — total count,
average confidence (explicitly 0 on an empty window, never a division by
zero), count of decisions with confidence below the fixed 0.5 threshold,
and that count as a percentage of the total rounded to two decimals
(0 when the total is 0). -/
def stats (s : Store) (now : ℚ) (days : Nat) : StatsResult :=
  let w := statsWindow s now days
  let n := w.length
  let confSum := (w.map (fun d => d.confidence)).sum
  let low := (w.filter (fun d => decide (d.confidence < 1/2))).length
  { total_decisions := n
    average_confidence := if n = 0 then 0 else confSum / (n : ℚ)
    low_confidence_count := low
    low_confidence_percentage :=
      if n = 0 then 0 else round2 ((low : ℚ) * 100 / (n : ℚ)) }

/-- Response shape of the replay endpoint. -/
structure ReplayResult where
  decision : Decision
  total_steps : Nat
  duration_seconds : ℚ
deriving DecidableEq

/-- Look a decision up by its external id. -/
def findDecision (s : Store) (id : String) : Option Decision :=
  s.decisions.find? (fun d => d.decision_id == id)

/-- Modelled from the spec: the replay endpoint — `none` models the 404
NotFound response for an unknown id; otherwise the decision is returned
with its step count and the last step's timestamp minus the first
step's timestamp in seconds (0 when there are no steps). -/
def replay (s : Store) (id : String) : Option ReplayResult :=
  match findDecision s id with
  | none => none
  | some d =>
      let first := (d.steps.head?.map (fun st => st.timestamp)).getD 0
      let last := (d.steps.getLast?.map (fun st => st.timestamp)).getD 0
      some ⟨d, d.steps.length, last - first⟩

/-! ### The React client (embedded from frontend/src) -/

/-- Client pagination state (App.jsx `pagination` useState). -/
structure Pagination where
  total : Nat
  limit : Nat
  offset : Nat
  hasMore : Bool
deriving DecidableEq

/-- Client filter state (App.jsx `filters` useState); select values are
carried as the strings the FilterBar controls produce. -/
structure Filters where
  source : Option String
  minConfidence : Option ℚ
  sort : String
  search : Option String
deriving DecidableEq

/-- A decision row as held by the client; the client never interprets
rows, so their payload is irrelevant to the embedded state machine. -/
structure ClientRow where
  decision_id : String
deriving DecidableEq

/-- The client state relevant to list/pagination behavior. -/
structure AppState where
  decisions : List ClientRow
  pagination : Pagination
  filters : Filters
deriving DecidableEq

/-- The FilterBar's reset payload (FilterBar.jsx `handleReset`). -/
def resetFilters : Filters :=
  { source := none, minConfidence := none, sort := "desc", search := none }

/-- The client's initial state (App.jsx initial useState values). -/
def initState : AppState :=
  { decisions := []
    pagination := { total := 0, limit := 50, offset := 0, hasMore := false }
    filters := resetFilters }

/-- A list response as seen by the client: either the new shape with a
`decisions` field plus `total` and `has_more`, or the legacy bare array. -/
inductive ListResponse where
  | rich (decisions : List ClientRow) (total : Nat) (has_more : Bool)
  | bare (decisions : List ClientRow)
deriving DecidableEq

/-- App.jsx `loadData` response handling: the new shape updates the
decision list, total and hasMore; the legacy bare array replaces the
decision list and leaves pagination untouched. -/
def applyListResponse (s : AppState) (r : ListResponse) : AppState :=
  match r with
  | ListResponse.rich ds t hm =>
      { s with
        decisions := ds
        pagination := { s.pagination with total := t, hasMore := hm } }
  | ListResponse.bare ds =>
      { s with decisions := ds }

/-- App.jsx `handleFilterChange`: install the new filters and reset the
pagination offset to 0. -/
def handleFilterChange (s : AppState) (nf : Filters) : AppState :=
  { s with
    filters := nf
    pagination := { s.pagination with offset := 0 } }

/-- App.jsx `handleLoadMore`: advance the offset by exactly the limit. -/
def handleLoadMore (s : AppState) : AppState :=
  { s with
    pagination :=
      { s.pagination with offset := s.pagination.offset + s.pagination.limit } }

/-- The client events that touch list/pagination state. -/
inductive ClientEvent where
  | filterChange (nf : Filters)
  | loadMore
  | response (r : ListResponse)
deriving DecidableEq

/-- One client transition. -/
def stepClient (s : AppState) : ClientEvent → AppState
  | ClientEvent.filterChange nf => handleFilterChange s nf
  | ClientEvent.loadMore => handleLoadMore s
  | ClientEvent.response r => applyListResponse s r

/-- Run the client from its initial state through a list of events. -/
def runClient (es : List ClientEvent) : AppState :=
  es.foldl stepClient initState

/-! ### Request-building in services/api.js -/

/-- A query-string value: the client appends strings and numbers. -/
inductive ParamVal where
  | str (s : String)
  | num (q : ℚ)
  | nat (n : Nat)
deriving DecidableEq

/-- The filter object handed to the api layer: App.jsx spreads its
filter state and adds the numeric limit and offset. -/
structure ApiFilters where
  limit : Nat
  offset : Nat
  source : Option String
  minConfidence : Option ℚ
  maxConfidence : Option ℚ
  search : Option String
  tag : Option String
  sort : Option String
deriving DecidableEq

/-- JavaScript truthiness of a possibly-absent string: absent and the
empty string are falsy. -/
def truthyStr : Option String → Bool
  | none => false
  | some s => s ≠ ""

/-- JavaScript truthiness of a possibly-absent number: absent and 0 are
falsy. -/
def truthyNum : Option ℚ → Bool
  | none => false
  | some q => q ≠ 0

/-- api.js `getDecisions` query construction, one append per guarded
parameter in source order; limit and offset are guarded by truthiness,
minConfidence and maxConfidence by an explicit null/undefined check. -/
def getDecisionsParams (f : ApiFilters) : List (String × ParamVal) :=
  (if f.limit ≠ 0 then [("limit", ParamVal.nat f.limit)] else []) ++
  (if f.offset ≠ 0 then [("offset", ParamVal.nat f.offset)] else []) ++
  (if truthyStr f.source then [("source", ParamVal.str (f.source.getD ""))] else []) ++
  (match f.minConfidence with
    | some q => [("min_confidence", ParamVal.num q)]
    | none => []) ++
  (match f.maxConfidence with
    | some q => [("max_confidence", ParamVal.num q)]
    | none => []) ++
  (if truthyStr f.search then [("search", ParamVal.str (f.search.getD ""))] else []) ++
  (if truthyStr f.tag then [("tag", ParamVal.str (f.tag.getD ""))] else []) ++
  (if truthyStr f.sort then [("sort", ParamVal.str (f.sort.getD ""))] else [])

/-- api.js `exportDecisionsCSV` and `exportDecisionsJSON` query
construction: only source and minConfidence are appended, both guarded
by truthiness. -/
def exportParams (f : ApiFilters) : List (String × ParamVal) :=
  (if truthyStr f.source then [("source", ParamVal.str (f.source.getD ""))] else []) ++
  (if truthyNum f.minConfidence then
    [("min_confidence", ParamVal.num (f.minConfidence.getD 0))] else [])

/-- The keys of a parameter list. -/
def paramKeys (ps : List (String × ParamVal)) : List String :=
  ps.map Prod.fst

/-! ### Reachable stores and concrete test data -/

/-- Stores reachable from the empty store by successful create calls. -/
inductive Reach : Store → Prop where
  | init : Reach ⟨[]⟩
  | step (newId : String) (ts : ℚ) (p : CreatePayload) (s s2 : Store) :
      Reach s → create newId ts p s = Except.ok s2 → Reach s2

/-- A well-formed creation request with no explicit steps. -/
def payloadA : CreatePayload :=
  { input_data := some "refund request"
    reasoning := some "premium tier"
    decision := some "approve_refund"
    confidence := 92/100
    source := Source.rule
    outcome := none
    tags := ["refund"]
    steps := none }

/-- A creation request whose confidence exceeds 1. -/
def payloadHigh : CreatePayload :=
  { payloadA with confidence := 101/100 }

/-- A creation request that carries two explicit steps. -/
def payloadExp : CreatePayload :=
  { input_data := none
    reasoning := none
    decision := some "escalate"
    confidence := 1/2
    source := Source.llm
    outcome := none
    tags := []
    steps := some [⟨StepType.input, "a", 5⟩, ⟨StepType.reasoning, "b", 6⟩] }

/-- The decision persisted for `payloadExp`. -/
def expDec : Decision := mkDecision "e1" 5 payloadExp

/-- The store after creating `payloadExp` in the empty store. -/
def expStore : Store := ⟨[expDec]⟩

/-! ### Helper lemmas -/

theorem create_ok_shape (newId : String) (ts : ℚ) (p : CreatePayload)
    (s s2 : Store) (h : create newId ts p s = Except.ok s2) :
    s2.decisions = mkDecision newId ts p :: s.decisions := by
  unfold create at h
  cases hv : validatePayload p with
  | some e => rw [hv] at h; cases h
  | none => rw [hv] at h; cases h; rfl

theorem assignOrders_orders (xs : List StepPayload) :
    (assignOrders xs).map Step.step_order = List.range xs.length := by
  unfold assignOrders
  rw [List.map_map]
  have hcomp : (Step.step_order ∘ fun q : Nat × StepPayload =>
      (⟨q.1, q.2.step_type, q.2.content, q.2.timestamp⟩ : Step)) = Prod.fst := by
    funext q; rfl
  rw [hcomp, List.enum_eq_enumFrom, List.enumFrom_map_fst, List.range_eq_range']

theorem assignOrders_length (xs : List StepPayload) :
    (assignOrders xs).length = xs.length := by
  simp [assignOrders]

theorem sequenceSteps_orders (p : CreatePayload) (ts : ℚ) :
    (sequenceSteps p ts).map Step.step_order
      = List.range (sequenceSteps p ts).length := by
  unfold sequenceSteps
  cases p.steps with
  | some xs => rw [assignOrders_orders, assignOrders_length]
  | none => rw [assignOrders_orders, assignOrders_length]

theorem reach_orders (s : Store) (hs : Reach s) :
    ∀ d ∈ s.decisions,
      d.steps.map Step.step_order = List.range d.steps.length := by
  induction hs with
  | init => intro d hd; simp at hd
  | step newId ts p s0 s2 _ hok ih =>
      intro d hd
      rw [create_ok_shape newId ts p s0 s2 hok] at hd
      rcases List.mem_cons.mp hd with h | h
      · subst h; exact sequenceSteps_orders p ts
      · exact ih d h

/-! ### Claim theorems -/

/-- C1: a decision-creation request is rejected with a `ValidationError`
exactly when its confidence lies outside the closed interval [0, 1];
in range (including the boundary values 0 and 1) the request succeeds,
out of range it fails with the out-of-range error and no decision is
persisted (no ok store exists). -/
theorem create_ok_iff_confidence_in_range
    (newId : String) (ts : ℚ) (p : CreatePayload) (s : Store)
    (hreq : p.decision.isSome = true) :
    ((0 ≤ p.confidence ∧ p.confidence ≤ 1) ↔
      ∃ s2, create newId ts p s = Except.ok s2) ∧
    (¬(0 ≤ p.confidence ∧ p.confidence ≤ 1) →
      create newId ts p s = Except.error ValidationError.outOfRangeConfidence) := by
  have hdec : p.decision.isNone = false := by
    cases hp : p.decision with
    | none => rw [hp] at hreq; simp at hreq
    | some v => rfl
  constructor
  · constructor
    · intro hin
      have hno : ¬(p.confidence < 0 ∨ 1 < p.confidence) := by
        push_neg
        exact hin
      refine ⟨⟨mkDecision newId ts p :: s.decisions⟩, ?_⟩
      simp [create, validatePayload, hno, hdec]
    · rintro ⟨s2, hs2⟩
      by_contra hout
      have hor : p.confidence < 0 ∨ 1 < p.confidence := by
        by_contra hno
        push_neg at hno
        exact hout hno
      simp [create, validatePayload, hor] at hs2
  · intro hout
    have hor : p.confidence < 0 ∨ 1 < p.confidence := by
      by_contra hno
      push_neg at hno
      exact hout hno
    simp [create, validatePayload, hor]

/-- C1 witness: a payload with confidence 0.92 is accepted, and the same
payload with confidence 1.01 is rejected with the out-of-range error. -/
theorem create_ok_iff_confidence_in_range_witness :
    (∃ s2, create "d1" 0 payloadA ⟨[]⟩ = Except.ok s2) ∧
    create "d2" 0 payloadHigh ⟨[]⟩
      = Except.error ValidationError.outOfRangeConfidence := by
  constructor
  · exact (create_ok_iff_confidence_in_range "d1" 0 payloadA ⟨[]⟩ rfl).1.mp
      (by constructor <;> norm_num [payloadA])
  · exact (create_ok_iff_confidence_in_range "d2" 0 payloadHigh ⟨[]⟩ rfl).2
      (by norm_num [payloadHigh, payloadA])

/-- C2: for every decision persisted in a reachable store, the
step_order values of its steps are exactly 0, 1, ..., n-1 in order
(contiguous, zero-based, no gaps or duplicates); and when the decision
was built from a payload with explicit steps, the step at each position
carries `step_order` equal to that position and the supplied step's
type, content and timestamp, so the supplied order is preserved. -/
theorem persisted_step_orders_contiguous
    (s : Store) (hs : Reach s) (d : Decision) (hd : d ∈ s.decisions)
    (newId : String) (ts : ℚ) (p : CreatePayload) (xs : List StepPayload)
    (i : Nat) :
    d.steps.map Step.step_order = List.range d.steps.length ∧
    (d = mkDecision newId ts p → p.steps = some xs → i < xs.length →
      d.steps[i]? = (xs[i]?).map
        (fun sp => ⟨i, sp.step_type, sp.content, sp.timestamp⟩)) := by
  constructor
  · exact reach_orders s hs d hd
  · intro hmk hxs _
    subst hmk
    show (sequenceSteps p ts)[i]? = _
    rw [sequenceSteps, hxs]
    simp only [assignOrders, List.getElem?_map, List.getElem?_enum, Option.map_map]
    cases xs[i]? <;> rfl

/-- C2 witness: in the store reached by creating `payloadExp` (two
explicit steps) in the empty store, the persisted decision's step
orders are [0, 1] and position 1 holds the second supplied step with
step_order 1. -/
theorem persisted_step_orders_contiguous_witness :
    (expDec.steps.map Step.step_order = List.range expDec.steps.length) ∧
    expDec.steps[1]?
      = some ⟨1, StepType.reasoning, "b", 6⟩ := by
  have hcreate : create "e1" 5 payloadExp ⟨[]⟩ = Except.ok expStore := by
    norm_num [create, validatePayload, payloadExp, expStore, expDec]
  have h := persisted_step_orders_contiguous expStore
    (Reach.step "e1" 5 payloadExp ⟨[]⟩ expStore Reach.init hcreate)
    expDec (by simp [expStore]) "e1" 5 payloadExp
    [⟨StepType.input, "a", 5⟩, ⟨StepType.reasoning, "b", 6⟩] 1
  refine ⟨h.1, ?_⟩
  rw [h.2 rfl rfl (by decide)]
  rfl

theorem insertLe_length (le : Decision → Decision → Bool) (a : Decision)
    (l : List Decision) : (insertLe le a l).length = l.length + 1 := by
  induction l with
  | nil => rfl
  | cons b bs ih =>
      rw [insertLe]
      split
      · rfl
      · simp [ih]

theorem sortDecisions_length (le : Decision → Decision → Bool)
    (l : List Decision) : (sortDecisions le l).length = l.length := by
  induction l with
  | nil => rfl
  | cons b bs ih =>
      show (insertLe le b (sortDecisions le bs)).length = bs.length + 1
      rw [insertLe_length, ih]

theorem listQuery_items_length (s : Store) (f : ListFilters) :
    (listQuery s f).items.length
      = min f.limit
          ((s.decisions.filter (matchesFilters f)).length - f.offset) := by
  show ((((sortDecisions (orderLe f.sort)
      (s.decisions.filter (matchesFilters f)))).drop f.offset).take f.limit).length = _
  rw [List.length_take, List.length_drop, sortDecisions_length]

/-- A store holding a single decision, used as the C3 counterexample. -/
def cexStore : Store :=
  ⟨[{ decision_id := "c1", timestamp := 0, input_data := none,
      reasoning := none, decision := "approve", confidence := 1/2,
      source := Source.rule, outcome := none, tags := [], steps := [] }]⟩

/-- A filterless list query whose offset 2 lies beyond the single match. -/
def cexFilters : ListFilters :=
  { source := none, min_confidence := none, max_confidence := none,
    tag := none, search := none, sort := SortDir.desc,
    limit := 50, offset := 2 }

/-- C3 counterexample: for a store with one matching decision and a
query with offset 2, the client's remaining count total − offset −
(number of returned items) is −1, so it is not nonnegative as claimed. -/
theorem remaining_count_negative_at_offset_beyond_total :
    ((listQuery cexStore cexFilters).total : ℤ) - (cexFilters.offset : ℤ)
      - ((listQuery cexStore cexFilters).items.length : ℤ) < 0 := by
  decide

/-- C3 (amended): for every list query, total counts the decisions
matching the filters before pagination, has_more holds exactly when
offset + (number of returned items) < total, the remaining count
total − offset − (number of returned items) is positive exactly when
has_more holds, and it is nonnegative provided offset ≤ total (as in
every client state reached from offset 0 by Load More against unchanged
data). -/
theorem listQuery_total_has_more (s : Store) (f : ListFilters) :
    (listQuery s f).total = (s.decisions.filter (matchesFilters f)).length ∧
    ((listQuery s f).has_more = true ↔
      f.offset + (listQuery s f).items.length < (listQuery s f).total) ∧
    (0 < ((listQuery s f).total : ℤ) - (f.offset : ℤ)
        - ((listQuery s f).items.length : ℤ) ↔
      (listQuery s f).has_more = true) ∧
    (f.offset ≤ (listQuery s f).total →
      0 ≤ ((listQuery s f).total : ℤ) - (f.offset : ℤ)
        - ((listQuery s f).items.length : ℤ)) := by
  have htot : (listQuery s f).total
      = (s.decisions.filter (matchesFilters f)).length := rfl
  have hhm : (listQuery s f).has_more = true ↔
      f.offset + (listQuery s f).items.length < (listQuery s f).total := by
    show decide _ = true ↔ _
    rw [decide_eq_true_iff]
    rfl
  refine ⟨htot, hhm, ?_, ?_⟩
  · rw [hhm]
    constructor
    · intro h
      have : (f.offset : ℤ) + ((listQuery s f).items.length : ℤ)
          < ((listQuery s f).total : ℤ) := by omega
      exact_mod_cast this
    · intro h
      have : (f.offset : ℤ) + ((listQuery s f).items.length : ℤ)
          < ((listQuery s f).total : ℤ) := by exact_mod_cast h
      omega
  · intro hle
    have hlen := listQuery_items_length s f
    rw [htot] at hle ⊢
    rw [hlen]
    have hmin : min f.limit
        ((s.decisions.filter (matchesFilters f)).length - f.offset)
        ≤ (s.decisions.filter (matchesFilters f)).length - f.offset :=
      min_le_right _ _
    omega

/-- C3 witness: for the counterexample store queried at offset 0, total
is 1, has_more is decided by the window, and with offset ≤ total the
remaining count is nonnegative. -/
theorem listQuery_total_has_more_witness :
    (listQuery cexStore
      { cexFilters with offset := 0 }).total = 1 ∧
    0 ≤ ((listQuery cexStore { cexFilters with offset := 0 }).total : ℤ)
      - (({ cexFilters with offset := 0 } : ListFilters).offset : ℤ)
      - ((listQuery cexStore
          { cexFilters with offset := 0 }).items.length : ℤ) := by
  have h := listQuery_total_has_more cexStore { cexFilters with offset := 0 }
  refine ⟨by rw [h.1]; decide, h.2.2.2 (by decide)⟩

/-- A filter set with an active search filter, used against C4. -/
def searchFilters : ApiFilters :=
  { limit := 50, offset := 0, source := none, minConfidence := none,
    maxConfidence := none, search := some "refund", tag := none,
    sort := some "desc" }

/-- C4 counterexample: with a search filter active, the list request
carries the search parameter but the CSV/JSON export request does not,
so the export does not carry the same filter parameters as the list
request. -/
theorem export_params_drop_search :
    "search" ∈ paramKeys (getDecisionsParams searchFilters) ∧
    "search" ∉ paramKeys (exportParams searchFilters) := by
  decide

/-- C4 (amended): the export-to-CSV and export-to-JSON requests carry
only the source and min_confidence filters, each sent exactly when its
value is truthy (so a min_confidence of 0 is also dropped); tag, search,
sort, limit, offset and max_confidence are never transmitted, so the
exported rows match the filtered list result only when those other
filters are unset. -/
theorem export_params_only_source_min_confidence (f : ApiFilters) :
    paramKeys (exportParams f) ⊆ ["source", "min_confidence"] ∧
    ("source" ∈ paramKeys (exportParams f) ↔ truthyStr f.source = true) ∧
    ("min_confidence" ∈ paramKeys (exportParams f) ↔
      truthyNum f.minConfidence = true) := by
  rcases f with ⟨lim, off, src, minC, maxC, sea, tg, srt⟩
  refine ⟨?_, ?_, ?_⟩
  · intro k hk
    simp only [exportParams, paramKeys, List.map_append, List.mem_append] at hk
    rcases hk with hk | hk
    · split at hk <;> simp_all
    · split at hk <;> simp_all
  · constructor
    · intro hk
      simp only [exportParams, paramKeys, List.map_append, List.mem_append] at hk
      rcases hk with hk | hk
      · split at hk <;> simp_all
      · split at hk <;> simp_all
    · intro ht
      simp [exportParams, paramKeys, ht]
  · constructor
    · intro hk
      simp only [exportParams, paramKeys, List.map_append, List.mem_append] at hk
      rcases hk with hk | hk
      · split at hk <;> simp_all
      · split at hk <;> simp_all
    · intro ht
      simp [exportParams, paramKeys, ht]

/-- C4 witness: for a filter set with source "rule" and min_confidence
0.7, both allowed keys appear in the export request. -/
theorem export_params_only_source_min_confidence_witness :
    "source" ∈ paramKeys (exportParams
      { limit := 50, offset := 0, source := some "rule",
        minConfidence := some (7/10), maxConfidence := none,
        search := none, tag := none, sort := none }) ∧
    "min_confidence" ∈ paramKeys (exportParams
      { limit := 50, offset := 0, source := some "rule",
        minConfidence := some (7/10), maxConfidence := none,
        search := none, tag := none, sort := none }) := by
  have h := export_params_only_source_min_confidence
    { limit := 50, offset := 0, source := some "rule",
      minConfidence := some (7/10), maxConfidence := none,
      search := none, tag := none, sort := none }
  exact ⟨h.2.1.mpr (by decide), h.2.2.mpr (by norm_num [truthyNum])⟩

/-- C5: each list parameter left unspecified takes its default — limit
50 (and the applied limit never exceeds the hard cap 500), offset 0,
sort descending — and the client's initial state and its filter reset
use exactly these defaults: initial pagination is limit 50 offset 0,
initial filters and the reset payload are sort "desc" with no source,
confidence or search filter, and a filter reset leaves the limit alone
while forcing the offset back to 0. -/
theorem list_defaults (r : RawListParams) (s : AppState) :
    (r.limit = none → (applyDefaults r).limit = 50) ∧
    (applyDefaults r).limit ≤ 500 ∧
    (r.offset = none → (applyDefaults r).offset = 0) ∧
    (r.sort = none → (applyDefaults r).sort = SortDir.desc) ∧
    initState.pagination.limit = 50 ∧
    initState.pagination.offset = 0 ∧
    initState.filters = resetFilters ∧
    resetFilters.sort = "desc" ∧
    resetFilters.source = none ∧
    resetFilters.minConfidence = none ∧
    resetFilters.search = none ∧
    (handleFilterChange s resetFilters).filters = resetFilters ∧
    (handleFilterChange s resetFilters).pagination.offset = 0 ∧
    (handleFilterChange s resetFilters).pagination.limit
      = s.pagination.limit := by
  refine ⟨?_, ?_, ?_, ?_, rfl, rfl, rfl, rfl, rfl, rfl, rfl, rfl, rfl, rfl⟩
  · intro h; simp [applyDefaults, h]
  · exact min_le_right _ _
  · intro h; simp [applyDefaults, h]
  · intro h; simp [applyDefaults, h]

/-- C5 witness: with every parameter unspecified the applied filters are
limit 50, offset 0, sort descending, and a reset from the initial state
keeps limit 50 with offset 0. -/
theorem list_defaults_witness :
    (applyDefaults emptyParams).limit = 50 ∧
    (applyDefaults emptyParams).offset = 0 ∧
    (applyDefaults emptyParams).sort = SortDir.desc ∧
    (handleFilterChange initState resetFilters).pagination.offset = 0 := by
  have h := list_defaults emptyParams initState
  exact ⟨h.1 rfl, h.2.2.1 rfl, h.2.2.2.1 rfl, h.2.2.2.2.2.2.2.2.2.2.2.2.1⟩

/-- C6: the client's boundary adapter accepts both list-response shapes:
a response with a decisions field replaces the decision list and updates
total and hasMore (leaving limit and offset alone), while a legacy bare
array replaces the decision list and leaves the whole pagination state,
total and hasMore included, unchanged. -/
theorem list_response_both_shapes (s : AppState) (ds : List ClientRow)
    (t : Nat) (hm : Bool) :
    (applyListResponse s (ListResponse.rich ds t hm)).decisions = ds ∧
    (applyListResponse s (ListResponse.rich ds t hm)).pagination.total = t ∧
    (applyListResponse s (ListResponse.rich ds t hm)).pagination.hasMore = hm ∧
    (applyListResponse s (ListResponse.rich ds t hm)).pagination.limit
      = s.pagination.limit ∧
    (applyListResponse s (ListResponse.rich ds t hm)).pagination.offset
      = s.pagination.offset ∧
    (applyListResponse s (ListResponse.rich ds t hm)).filters = s.filters ∧
    (applyListResponse s (ListResponse.bare ds)).decisions = ds ∧
    (applyListResponse s (ListResponse.bare ds)).pagination = s.pagination ∧
    (applyListResponse s (ListResponse.bare ds)).filters = s.filters :=
  ⟨rfl, rfl, rfl, rfl, rfl, rfl, rfl, rfl, rfl⟩

/-- A store with three decisions in the stats window, confidences 0.95,
0.40 and 0.60 (the spec's stats scenario). -/
def statsStore : Store :=
  ⟨[{ decision_id := "s1", timestamp := 0, input_data := none,
      reasoning := none, decision := "a", confidence := 95/100,
      source := Source.rule, outcome := none, tags := [], steps := [] },
    { decision_id := "s2", timestamp := 0, input_data := none,
      reasoning := none, decision := "b", confidence := 40/100,
      source := Source.llm, outcome := none, tags := [], steps := [] },
    { decision_id := "s3", timestamp := 0, input_data := none,
      reasoning := none, decision := "c", confidence := 60/100,
      source := Source.hybrid, outcome := none, tags := [], steps := [] }]⟩

/-- C7: over an empty stats window average_confidence is 0 and
low_confidence_percentage is 0 (no error, no division by zero); over a
non-empty window the average times the count equals the sum of the
confidences (so it is the arithmetic mean) and the low-confidence
percentage is count/total × 100 rounded to two decimals. -/
theorem stats_safe_mean_and_percentage (s : Store) (now : ℚ) (days : Nat) :
    ((stats s now days).total_decisions = 0 →
      (stats s now days).average_confidence = 0 ∧
      (stats s now days).low_confidence_percentage = 0) ∧
    ((stats s now days).total_decisions ≠ 0 →
      ((stats s now days).total_decisions : ℚ) *
          (stats s now days).average_confidence
        = ((statsWindow s now days).map (fun d => d.confidence)).sum ∧
      (stats s now days).low_confidence_percentage
        = round2 (((stats s now days).low_confidence_count : ℚ) * 100
            / ((stats s now days).total_decisions : ℚ))) := by
  have hn : (stats s now days).total_decisions
      = (statsWindow s now days).length := rfl
  constructor
  · intro h
    rw [hn] at h
    constructor <;> simp [stats, h]
  · intro h
    rw [hn] at h
    have hc : ((statsWindow s now days).length : ℚ) ≠ 0 :=
      Nat.cast_ne_zero.mpr h
    constructor
    · simp only [stats, hn, if_neg h]
      rw [mul_comm, div_mul_cancel₀ _ hc]
    · simp [stats, h]

/-- C7 witness: the spec scenario store (confidences 0.95, 0.40, 0.60)
yields mean × count = sum and the rounded percentage, while the empty
store yields average 0 and percentage 0. -/
theorem stats_safe_mean_and_percentage_witness :
    (((stats statsStore 0 7).total_decisions : ℚ) *
        (stats statsStore 0 7).average_confidence
      = ((statsWindow statsStore 0 7).map (fun d => d.confidence)).sum ∧
     (stats statsStore 0 7).low_confidence_percentage
      = round2 (((stats statsStore 0 7).low_confidence_count : ℚ) * 100
          / ((stats statsStore 0 7).total_decisions : ℚ))) ∧
    ((stats ⟨[]⟩ 0 7).average_confidence = 0 ∧
     (stats ⟨[]⟩ 0 7).low_confidence_percentage = 0) :=
  ⟨(stats_safe_mean_and_percentage statsStore 0 7).2
    (by norm_num [stats, statsWindow, statsStore, List.filter]),
   (stats_safe_mean_and_percentage ⟨[]⟩ 0 7).1 rfl⟩

/-- A decision with two steps, at timestamps 5 and 17.5 seconds. -/
def wDec : Decision :=
  { decision_id := "w1", timestamp := 5, input_data := none,
    reasoning := none, decision := "route", confidence := 8/10,
    source := Source.hybrid, outcome := none, tags := [],
    steps := [⟨0, StepType.input, "a", 5⟩,
              ⟨1, StepType.outcome, "b", 35/2⟩] }

/-- A store holding only `wDec`. -/
def wStore : Store := ⟨[wDec]⟩

/-- C8: for an existing decision the replay endpoint returns the
decision, total_steps equal to the number of its steps, and
duration_seconds equal to the last step's timestamp minus the first
step's timestamp in seconds; for an unknown decision_id it returns
none, modelling the 404 NotFound response. -/
theorem replay_result (s : Store) (id : String) (d : Decision)
    (st0 stn : Step) :
    (findDecision s id = none → replay s id = none) ∧
    (findDecision s id = some d → d.steps.head? = some st0 →
      d.steps.getLast? = some stn →
      replay s id = some ⟨d, d.steps.length,
        stn.timestamp - st0.timestamp⟩) := by
  constructor
  · intro h
    simp [replay, h]
  · intro h h0 hn
    simp [replay, h, h0, hn]

/-- C8 witness: replaying `wDec` returns 2 steps and a duration of 12.5
seconds (17.5 − 5), and an unknown id replays to none. -/
theorem replay_result_witness :
    replay wStore "w1" = some ⟨wDec, 2, 25/2⟩ ∧
    replay wStore "nope" = none := by
  constructor
  · have h := (replay_result wStore "w1" wDec
      ⟨0, StepType.input, "a", 5⟩ ⟨1, StepType.outcome, "b", 35/2⟩).2
      rfl rfl rfl
    rw [h]
    norm_num [wDec]
  · exact (replay_result wStore "nope" wDec
      ⟨0, StepType.input, "a", 5⟩ ⟨1, StepType.outcome, "b", 35/2⟩).1
      rfl

theorem client_inv (es : List ClientEvent) (s : AppState)
    (h1 : s.pagination.limit = 50) (h2 : s.pagination.offset % 50 = 0) :
    (es.foldl stepClient s).pagination.limit = 50 ∧
    (es.foldl stepClient s).pagination.offset % 50 = 0 := by
  induction es generalizing s with
  | nil => exact ⟨h1, h2⟩
  | cons e es ih =>
      rw [List.foldl_cons]
      apply ih
      · cases e with
        | filterChange nf => exact h1
        | loadMore => exact h1
        | response r => cases r <;> exact h1
      · cases e with
        | filterChange nf => simp [stepClient, handleFilterChange]
        | loadMore =>
            show (s.pagination.offset + s.pagination.limit) % 50 = 0
            rw [h1]
            omega
        | response r => cases r <;> exact h2

/-- C9: in every client run from the initial state, the page limit stays
50 and the offset stays a multiple of the limit; a filter-change event
always forces the offset back to 0 before the next request, and Load
More advances the offset by exactly the limit. -/
theorem client_offset_multiple_of_limit (es : List ClientEvent)
    (s : AppState) (nf : Filters) :
    (runClient es).pagination.limit = 50 ∧
    (runClient es).pagination.offset % (runClient es).pagination.limit = 0 ∧
    (stepClient s (ClientEvent.filterChange nf)).pagination.offset = 0 ∧
    (stepClient s ClientEvent.loadMore).pagination.offset
      = s.pagination.offset + s.pagination.limit := by
  have h := client_inv es initState rfl rfl
  refine ⟨h.1, ?_, rfl, rfl⟩
  show (es.foldl stepClient initState).pagination.offset %
    (es.foldl stepClient initState).pagination.limit = 0
  rw [h.1]
  exact h.2

/-- C10: the list request includes min_confidence and max_confidence
exactly when they are present, even when the value is 0, but guards
limit and offset by truthiness, so an offset of 0 and a limit of 0 are
never transmitted; with the limit key absent the modelled server falls
back to the default limit of 50. -/
theorem getDecisions_param_truthiness (f : ApiFilters) :
    ("min_confidence" ∈ paramKeys (getDecisionsParams f) ↔
      f.minConfidence.isSome = true) ∧
    ("max_confidence" ∈ paramKeys (getDecisionsParams f) ↔
      f.maxConfidence.isSome = true) ∧
    ("limit" ∈ paramKeys (getDecisionsParams f) ↔ f.limit ≠ 0) ∧
    ("offset" ∈ paramKeys (getDecisionsParams f) ↔ f.offset ≠ 0) ∧
    (f.minConfidence = some 0 →
      ("min_confidence", ParamVal.num 0) ∈ getDecisionsParams f) ∧
    (f.limit = 0 → (applyDefaults emptyParams).limit = 50) := by
  rcases f with ⟨lim, off, src, minC, maxC, sea, tg, srt⟩
  refine ⟨?_, ?_, ?_, ?_, ?_, fun _ => rfl⟩
  · cases minC <;> cases maxC <;>
      simp [getDecisionsParams, paramKeys, truthyStr]
  · cases minC <;> cases maxC <;>
      simp [getDecisionsParams, paramKeys, truthyStr]
  · cases minC <;> cases maxC <;> by_cases hl : lim = 0 <;>
      simp [getDecisionsParams, paramKeys, truthyStr, hl]
  · cases minC <;> cases maxC <;> by_cases ho : off = 0 <;>
      simp [getDecisionsParams, paramKeys, truthyStr, ho]
  · intro hm
    subst hm
    simp [getDecisionsParams, paramKeys]

/-- C10 witness: the filter object the client builds on first load with
a 0 minimum-confidence filter (limit 50, offset 0) transmits
min_confidence 0 but no offset key. -/
theorem getDecisions_param_truthiness_witness :
    ("min_confidence", ParamVal.num 0) ∈ getDecisionsParams
      { limit := 50, offset := 0, source := none, minConfidence := some 0,
        maxConfidence := none, search := none, tag := none,
        sort := some "desc" } ∧
    "offset" ∉ paramKeys (getDecisionsParams
      { limit := 50, offset := 0, source := none, minConfidence := some 0,
        maxConfidence := none, search := none, tag := none,
        sort := some "desc" }) := by
  have h := getDecisions_param_truthiness
    { limit := 50, offset := 0, source := none, minConfidence := some 0,
      maxConfidence := none, search := none, tag := none,
      sort := some "desc" }
  refine ⟨h.2.2.2.2.1 rfl, fun hm => ?_⟩
  exact (h.2.2.2.1.mp hm) rfl

end DecisionTimeline
